import Mathlib

/-!
Verification of the key-custody and shielded-note-consolidation subsystem
(`src/keystore.cpp` and `src/wallet/asyncrpcoperation_saplingconsolidation.cpp`).

The C++ data structures are shallowly embedded:
`std::map` becomes an association list over `Nat` keys with the three
operations the source uses (`operator[]=` as `mset`, `insert` as `minsert`,
`erase` as `merase`, `find`/`count` as `mfind`), `std::set` becomes a
duplicate-free `List Nat` (`sinsert`), and the cryptographic derivations of
libzcash (an external library) are abstract `Nat → Nat` functions collected
in a `LibZcash` record.  Amounts (`CAmount`, an `int64_t`) are `Int`;
realistic wallet values make 64-bit overflow unreachable so no modular
reduction is applied.
-/

/-- Lookup in an association list; models `std::map::find` / `count`. -/
def mfind {α : Type} : List (Nat × α) → Nat → Option α
  | [], _ => none
  | (k, v) :: t, k2 => if k = k2 then some v else mfind t k2

/-- Overwriting insert; models `std::map::operator[] = v`. -/
def mset {α : Type} : List (Nat × α) → Nat → α → List (Nat × α)
  | [], k, v => [(k, v)]
  | (k2, v2) :: t, k, v => if k2 = k then (k, v) :: t else (k2, v2) :: mset t k v

/-- Non-overwriting insert; models `std::map::insert` (keeps an existing entry). -/
def minsert {α : Type} (m : List (Nat × α)) (k : Nat) (v : α) : List (Nat × α) :=
  match mfind m k with
  | some _ => m
  | none => (k, v) :: m

/-- Key removal; models `std::map::erase`. -/
def merase {α : Type} : List (Nat × α) → Nat → List (Nat × α)
  | [], _ => []
  | (k2, v) :: t, k => if k2 = k then merase t k else (k2, v) :: merase t k

/-- Set insert; models `std::set::insert` (idempotent). -/
def sinsert (s : List Nat) (x : Nat) : List Nat :=
  if s.contains x then s else x :: s

theorem mfind_mset_self {α : Type} (m : List (Nat × α)) (k : Nat) (v : α) :
    mfind (mset m k v) k = some v := by
  induction m with
  | nil => simp [mset, mfind]
  | cons p t ih =>
    by_cases h : p.1 = k
    · simp [mset, h, mfind]
    · simp [mset, h, mfind, ih]

theorem mfind_mset_ne {α : Type} (m : List (Nat × α)) (k k2 : Nat) (v : α)
    (h : k ≠ k2) : mfind (mset m k v) k2 = mfind m k2 := by
  induction m with
  | nil => simp [mset, mfind, h]
  | cons p t ih =>
    by_cases hp : p.1 = k
    · simp [mset, hp, mfind, h]
    · simp [mset, hp, mfind, ih]

theorem mfind_merase_self {α : Type} (m : List (Nat × α)) (k : Nat) :
    mfind (merase m k) k = none := by
  induction m with
  | nil => simp [merase, mfind]
  | cons p t ih =>
    by_cases hp : p.1 = k
    · simpa [merase, hp] using ih
    · simp [merase, hp, mfind, ih]

theorem mfind_merase_ne {α : Type} (m : List (Nat × α)) (k k2 : Nat)
    (h : k2 ≠ k) : mfind (merase m k) k2 = mfind m k2 := by
  induction m with
  | nil => simp [merase, mfind]
  | cons p t ih =>
    by_cases hp : p.1 = k
    · have hpk : p.1 ≠ k2 := by rw [hp]; exact fun hh => h hh.symm
      simp [merase, hp, mfind, hpk, ih, Ne.symm h]
    · by_cases hq : p.1 = k2
      · simp [merase, hp, hq, mfind, h]
      · simp [merase, hp, hq, mfind, ih, h]

theorem mfind_minsert_isSome {α : Type} (m : List (Nat × α)) (k : Nat) (v : α) :
    (mfind (minsert m k v) k).isSome = true := by
  unfold minsert
  cases h : mfind m k with
  | some w => simp [h]
  | none => simp [mfind]

/-- Abstract cryptographic derivations supplied by libzcash (an external
collaborator): Sprout key-to-address and key-component projections, the note
decryptor constructor, and the Sapling extended-key projections
(`ToXFVK`, `fvk.in_viewing_key`, `fvk.ovk`, `DefaultAddress`). -/
structure LibZcash where
  sproutSkAddress : Nat → Nat
  sproutSkReceivingKey : Nat → Nat
  sproutVkAddress : Nat → Nat
  sproutVkSkEnc : Nat → Nat
  noteDecryption : Nat → Nat
  toXFVK : Nat → Nat
  fvkInViewingKey : Nat → Nat
  fvkOvk : Nat → Nat
  defaultAddress : Nat → Nat

/-- The in-memory credential store of `keystore.cpp` (`CBasicKeyStore`):
one field per C++ member map/set, keys and values abstracted to `Nat`
(the HD seed is a byte vector, `List Nat`, whose null state is `[]`). -/
structure CBasicKeyStore where
  mapKeys : List (Nat × Nat)
  mapScripts : List (Nat × Nat)
  setWatchOnly : List Nat
  setSaplingWatchOnly : List Nat
  hdSeed : List Nat
  mapSproutSpendingKeys : List (Nat × Nat)
  mapSproutViewingKeys : List (Nat × Nat)
  mapNoteDecryptors : List (Nat × Nat)
  mapSaplingSpendingKeys : List (Nat × Nat)
  mapSaplingFullViewingKeys : List (Nat × Nat)
  mapSaplingIncomingViewingKeys : List (Nat × Nat)
  setSaplingOutgoingViewingKeys : List Nat
  setSaplingIncomingViewingKeys : List Nat
  mapSaplingPaymentAddresses : List (Nat × (Nat × Nat))
  mapLastDiversifierPath : List (Nat × Nat)
deriving DecidableEq

/-- The freshly constructed store: every map and set empty, seed null. -/
def emptyKeyStore : CBasicKeyStore :=
  { mapKeys := [], mapScripts := [], setWatchOnly := [], setSaplingWatchOnly := [],
    hdSeed := [], mapSproutSpendingKeys := [], mapSproutViewingKeys := [],
    mapNoteDecryptors := [], mapSaplingSpendingKeys := [],
    mapSaplingFullViewingKeys := [], mapSaplingIncomingViewingKeys := [],
    setSaplingOutgoingViewingKeys := [], setSaplingIncomingViewingKeys := [],
    mapSaplingPaymentAddresses := [], mapLastDiversifierPath := [] }

/-- `CBasicKeyStore::SetHDSeed` (keystore.cpp:41): refuses to change an
existing non-null seed, otherwise stores the new seed. -/
def SetHDSeed (seed : List Nat) (s : CBasicKeyStore) : CBasicKeyStore × Bool :=
  if s.hdSeed.isEmpty then ({ s with hdSeed := seed }, true) else (s, false)

/-- `CBasicKeyStore::GetHDSeed` (keystore.cpp:59): fails on a null seed. -/
def GetHDSeed (s : CBasicKeyStore) : Option (List Nat) :=
  if s.hdSeed.isEmpty then none else some s.hdSeed

/-- `CBasicKeyStore::AddSproutSpendingKey` (keystore.cpp:158): stores the key
under its derived address and caches a note decryptor (non-overwriting
`insert`) under the same address. -/
def AddSproutSpendingKey (L : LibZcash) (sk : Nat) (s : CBasicKeyStore) :
    CBasicKeyStore × Bool :=
  let address := L.sproutSkAddress sk
  ({ s with
      mapSproutSpendingKeys := mset s.mapSproutSpendingKeys address sk,
      mapNoteDecryptors :=
        minsert s.mapNoteDecryptors address
          (L.noteDecryption (L.sproutSkReceivingKey sk)) }, true)

/-- `CBasicKeyStore::AddSproutViewingKey` (keystore.cpp:184): stores the
viewing key under its derived address and caches a note decryptor derived
from `vk.sk_enc`. -/
def AddSproutViewingKey (L : LibZcash) (vk : Nat) (s : CBasicKeyStore) :
    CBasicKeyStore × Bool :=
  let address := L.sproutVkAddress vk
  ({ s with
      mapSproutViewingKeys := mset s.mapSproutViewingKeys address vk,
      mapNoteDecryptors :=
        minsert s.mapNoteDecryptors address
          (L.noteDecryption (L.sproutVkSkEnc vk)) }, true)

/-- `CBasicKeyStore::RemoveSproutViewingKey` (keystore.cpp:245): erases only
the viewing-key map entry for the key's address. -/
def RemoveSproutViewingKey (L : LibZcash) (vk : Nat) (s : CBasicKeyStore) :
    CBasicKeyStore × Bool :=
  ({ s with
      mapSproutViewingKeys := merase s.mapSproutViewingKeys (L.sproutVkAddress vk) },
   true)

/-- `CBasicKeyStore::AddSaplingIncomingViewingKey` (keystore.cpp:207):
`mapSaplingIncomingViewingKeys[addr] = ivk` (overwriting `operator[]`) and
insertion of `ivk` into the known-ivk set; always returns true. -/
def AddSaplingIncomingViewingKey (ivk addr : Nat) (s : CBasicKeyStore) :
    CBasicKeyStore × Bool :=
  ({ s with
      mapSaplingIncomingViewingKeys := mset s.mapSaplingIncomingViewingKeys addr ivk,
      setSaplingIncomingViewingKeys := sinsert s.setSaplingIncomingViewingKeys ivk },
   true)

/-- `CBasicKeyStore::AddSaplingFullViewingKey` (keystore.cpp:193): stores the
full viewing key under its incoming viewing key, registers the outgoing
viewing key, then registers the default address mapping. -/
def AddSaplingFullViewingKey (L : LibZcash) (extfvk : Nat) (s : CBasicKeyStore) :
    CBasicKeyStore × Bool :=
  let ivk := L.fvkInViewingKey extfvk
  let s1 := { s with
      mapSaplingFullViewingKeys := mset s.mapSaplingFullViewingKeys ivk extfvk,
      setSaplingOutgoingViewingKeys :=
        sinsert s.setSaplingOutgoingViewingKeys (L.fvkOvk extfvk) }
  AddSaplingIncomingViewingKey ivk (L.defaultAddress extfvk) s1

/-- `CBasicKeyStore::AddSaplingSpendingKey` (keystore.cpp:168): derives the
full viewing key, registers it (aborting on failure), then stores the
spending key keyed by the full viewing key. -/
def AddSaplingSpendingKey (L : LibZcash) (sk : Nat) (s : CBasicKeyStore) :
    CBasicKeyStore × Bool :=
  let extfvk := L.toXFVK sk
  let r := AddSaplingFullViewingKey L extfvk s
  if r.2 then
    ({ r.1 with mapSaplingSpendingKeys := mset r.1.mapSaplingSpendingKeys extfvk sk },
     true)
  else (r.1, false)

/-- `CBasicKeyStore::GetSaplingIncomingViewingKey` (keystore.cpp:296). -/
def GetSaplingIncomingViewingKey (s : CBasicKeyStore) (addr : Nat) : Option Nat :=
  mfind s.mapSaplingIncomingViewingKeys addr

/-- `CBasicKeyStore::GetSaplingFullViewingKey` (keystore.cpp:283). -/
def GetSaplingFullViewingKey (s : CBasicKeyStore) (ivk : Nat) : Option Nat :=
  mfind s.mapSaplingFullViewingKeys ivk

/-- Modelled from the spec: `GetSaplingSpendingKey` is declared in
`keystore.h`, which is not among the sources here; per the spec the final
link of the composite lookup resolves the full viewing key to the stored
spending key, a pure map lookup in `mapSaplingSpendingKeys`. -/
def GetSaplingSpendingKey (s : CBasicKeyStore) (extfvk : Nat) : Option Nat :=
  mfind s.mapSaplingSpendingKeys extfvk

/-- `CBasicKeyStore::GetSaplingExtendedSpendingKey` (keystore.cpp:308):
short-circuit composition `addr → ivk → full viewing key → spending key`. -/
def GetSaplingExtendedSpendingKey (s : CBasicKeyStore) (addr : Nat) : Option Nat :=
  match GetSaplingIncomingViewingKey s addr with
  | none => none
  | some ivk =>
    match GetSaplingFullViewingKey s ivk with
    | none => none
    | some extfvk => GetSaplingSpendingKey s extfvk

/-!
Consolidation job (`asyncrpcoperation_saplingconsolidation.cpp`).

The wallet, chain state, witness service, transaction builder and random
source are the external collaborators of spec section 6; they enter the model
as fields of `ConsEnv` (functions and data the job reads).  `rand()` is a
stream of naturals consumed in call order; the advisory cancellation flag of
the async-operation base class (declared outside these sources) is modelled
from the spec as a flag that reads true from some poll index on
(`cancelFrom`), polled at the documented checkpoints: job start and before
each commit.  The `RunState` record carries, besides the variables of
`main_impl`, ghost trace fields (`plans`, `selectedAmounts`,
`committedAmounts`) recording what was handed to the builder and what was
added to `amountConsolidated` at each of its two increment sites.
-/

/-- `CONSOLIDATION_EXPIRY_DELTA` (asyncrpcoperation_saplingconsolidation.cpp:17). -/
def CONSOLIDATION_EXPIRY_DELTA : Int := 40

/-- One element of the wallet's filtered Sapling note list
(`SaplingNoteEntry`): owning address, outpoint, note identity, note value. -/
structure SaplingNoteEntry where
  address : Nat
  op : Nat
  note : Nat
  value : Nat
deriving DecidableEq

/-- Everything handed to `TransactionBuilder` for one candidate transaction,
plus the ghost fields `selectedValue` (the `amountToSend` of the address) and
`selectedCount` (`fromNotes.size()`). Spends are
(expanded spending key, note, anchor, witness) quadruples. -/
structure BuilderPlan where
  expiryHeight : Int
  fee : Int
  spends : List (Nat × Nat × Nat × Nat)
  outputOvk : Nat
  outputAddr : Nat
  outputAmount : Int
  selectedValue : Int
  selectedCount : Nat
deriving DecidableEq

/-- The collaborators and configuration `main_impl` reads (spec section 6):
chain heights, the filtered note list, the optional address allow-list, the
wallet's key lookups and libzcash projections of the extended spending key,
the configured target count and fee, the witness service, the builder, the
cancellation flag and the random stream. -/
structure ConsEnv where
  targetHeight : Int
  nextActivationHeight : Option Int
  tipHeight : Int
  saplingEntries : List SaplingNoteEntry
  fConsolidationMapUsed : Bool
  consolidationAddresses : List Nat
  getExtSk : Nat → Option Nat
  getIvk : Nat → Option Nat
  extskIvk : Nat → Nat
  extskExpsk : Nat → Nat
  extskOvk : Nat → Nat
  targetConsolidationQty : Int
  fConsolidationTxFee : Int
  getWitnesses : List Nat → Nat × List (Option Nat)
  build : BuilderPlan → Option Nat
  cancelFrom : Option Nat
  initializeConsolidationInterval : Int
  rng : List Nat

/-- One `rand()` call: head of the stream (0 when exhausted) and the rest. -/
def randTake : List Nat → Nat × List Nat
  | [] => (0, [])
  | r :: t => (r, t)

/-- The advisory cancellation flag as read at the poll with index `polls`:
true from poll `k` on when cancellation was requested (`cancelFrom = some k`),
false forever otherwise. -/
def isCancelledAt (cancelFrom : Option Nat) (polls : Nat) : Bool :=
  match cancelFrom with
  | none => false
  | some k => decide (k ≤ polls)

/-- The per-note guard of both loops (lines 144 and 163): the note's address
resolves (defaulting to the zero ivk on a failed lookup, as the ignored
return value does) to the spending key's incoming viewing key, and the note's
address is the group address. -/
def noteMatch (env : ConsEnv) (extsk addr : Nat) (e : SaplingNoteEntry) : Bool :=
  ((env.getIvk e.address).getD 0 == env.extskIvk extsk) && (e.address == addr)

/-- The note-selection loop (lines 157-172): accumulate matching notes and
their summed value, stopping once `fromNotes.size() >= maxQuantity`. -/
def selectNotes (p : SaplingNoteEntry → Bool) (maxQ : Nat) :
    List SaplingNoteEntry → List SaplingNoteEntry → Int →
    List SaplingNoteEntry × Int
  | [], acc, amt => (acc, amt)
  | e :: es, acc, amt =>
    let acc2 := if p e then acc ++ [e] else acc
    let amt2 := if p e then amt + (e.value : Int) else amt
    if maxQ ≤ acc2.length then (acc2, amt2)
    else selectNotes p maxQ es acc2 amt2

/-- The spend-assembly loop (lines 208-214): one spend per note, pairing
notes with witnesses in order, and `break` at the first missing witness
(the remaining notes get no spend; assembly of the transaction continues). -/
def addSpends (expsk anchor : Nat) :
    List Nat → List (Option Nat) → List (Nat × Nat × Nat × Nat)
  | [], _ => []
  | _ :: _, [] => []
  | _ :: _, none :: _ => []
  | n :: ns, some w :: ws => (expsk, n, anchor, w) :: addSpends expsk anchor ns ws

/-- Insertion into the address-grouped note map, keeping keys in ascending
order (`std::map` iteration order) and notes in arrival order. -/
def insertGrouped : List (Nat × List SaplingNoteEntry) → SaplingNoteEntry →
    List (Nat × List SaplingNoteEntry)
  | [], e => [(e.address, [e])]
  | (k, es) :: t, e =>
    if e.address = k then (k, es ++ [e]) :: t
    else if e.address < k then (e.address, [e]) :: (k, es) :: t
    else (k, es) :: insertGrouped t e

/-- Lines 103-116: keep a note when its address is in the allow-list or the
allow-list is unused, then group the kept notes by address (`mapAddresses`). -/
def groupNotes (env : ConsEnv) : List (Nat × List SaplingNoteEntry) :=
  (env.saplingEntries.filter
    (fun e => env.consolidationAddresses.contains e.address || !env.fConsolidationMapUsed)).foldl
    insertGrouped []

/-- The mutable state of `main_impl`'s address loop: the random stream, the
number of cancellation polls made so far, `amountConsolidated`,
`consolidationTxIds`, `consolidationComplete`, and the ghost traces. -/
structure RunState where
  rng : List Nat
  polls : Nat
  amountConsolidated : Int
  consolidationTxIds : List Nat
  consolidationComplete : Bool
  plans : List BuilderPlan
  selectedAmounts : List Int
  committedAmounts : List Int
deriving DecidableEq

/-- The body of the address loop (lines 125-239) for one `mapAddresses`
entry.  Returns the updated state and `true` to continue with the next
address or `false` for the two `break` sites (builder failure, observed
cancellation). -/
def processAddress (env : ConsEnv) (st : RunState) (addr : Nat)
    (entries : List SaplingNoteEntry) : RunState × Bool :=
  match env.getExtSk addr with
  | none => (st, true)
  | some extsk =>
    let r1 := randTake st.rng
    let maxQuantity : Nat := r1.1 % 35 + 10
    let noteCount : Nat := (entries.filter (noteMatch env extsk addr)).length
    if (noteCount : Int) < env.targetConsolidationQty then
      ({ st with rng := r1.2 }, true)
    else
      let st1 := { st with rng := r1.2, consolidationComplete := false }
      let sel := selectNotes (noteMatch env extsk addr) maxQuantity entries [] 0
      let r2 := randTake st1.rng
      let minQuantity : Nat := r2.1 % 10 + 2
      if sel.1.length < minQuantity then
        ({ st1 with rng := r2.2 }, true)
      else
        let amountToSend : Int := sel.2
        let fee : Int :=
          if amountToSend ≤ env.fConsolidationTxFee then 0
          else env.fConsolidationTxFee
        let st2 :=
          { st1 with
            rng := r2.2,
            amountConsolidated := st1.amountConsolidated + amountToSend,
            selectedAmounts := st1.selectedAmounts ++ [amountToSend] }
        let wres := env.getWitnesses (sel.1.map (fun e => e.op))
        let plan : BuilderPlan :=
          { expiryHeight := env.tipHeight + CONSOLIDATION_EXPIRY_DELTA,
            fee := fee,
            spends := addSpends (env.extskExpsk extsk) wres.1
              (sel.1.map (fun e => e.note)) wres.2,
            outputOvk := env.extskOvk extsk,
            outputAddr := addr,
            outputAmount := amountToSend - fee,
            selectedValue := amountToSend,
            selectedCount := sel.1.length }
        let st3 := { st2 with plans := st2.plans ++ [plan] }
        match env.build plan with
        | none => (st3, false)
        | some tx =>
          if isCancelledAt env.cancelFrom st3.polls then
            ({ st3 with polls := st3.polls + 1 }, false)
          else
            ({ st3 with
                polls := st3.polls + 1,
                amountConsolidated := st3.amountConsolidated + (amountToSend - fee),
                consolidationTxIds := st3.consolidationTxIds ++ [tx],
                committedAmounts := st3.committedAmounts ++ [amountToSend - fee] },
             true)

/-- The address loop: fold `processAddress` over the grouped addresses,
stopping at a `break`. -/
def runAddresses (env : ConsEnv) :
    List (Nat × List SaplingNoteEntry) → RunState → RunState
  | [], st => st
  | (addr, entries) :: rest, st =>
    let r := processAddress env st addr entries
    if r.2 then runAddresses env rest r.1 else r.1

/-- The structured result handed to `setConsolidationResult` (lines 252-262). -/
structure ConsolidationResult where
  numTxCreated : Int
  amountConsolidated : Int
  consolidationTxIds : List Nat
deriving DecidableEq

/-- Everything observable about one `main_impl` run: the reported result,
the wallet scheduling updates of lines 241-244 (`some h` when
`nextConsolidation` was set to `h`; `runningCleared` when
`fConsolidationRunning` was cleared), the returned boolean, and the final
loop state with its ghost traces. -/
structure ImplResult where
  result : ConsolidationResult
  nextConsolidation : Option Int
  runningCleared : Bool
  ret : Bool
  trace : RunState
deriving DecidableEq

/-- The loop state on entry to the address loop (lines 119-124), with
`polls0` cancellation polls already made by the caller. -/
def initialRunState (env : ConsEnv) (polls0 : Nat) : RunState :=
  { rng := env.rng, polls := polls0, amountConsolidated := 0,
    consolidationTxIds := [], consolidationComplete := true,
    plans := [], selectedAmounts := [], committedAmounts := [] }

/-- `AsyncRPCOperation_saplingconsolidation::main_impl` (lines 72-250):
the network-upgrade proximity check with early zero report, the address
loop, the completion update of the wallet's schedule and running flag, and
the result report.  The local `int numTxCreated = 0` of line 119 is never
incremented anywhere in the loop; line 247 reports it as is. -/
def main_impl (env : ConsEnv) (polls0 : Nat) : ImplResult :=
  let skipNU : Bool :=
    match env.nextActivationHeight with
    | some h => decide (env.targetHeight + CONSOLIDATION_EXPIRY_DELTA ≥ h)
    | none => false
  if skipNU then
    { result := { numTxCreated := 0, amountConsolidated := 0,
                  consolidationTxIds := [] },
      nextConsolidation := none, runningCleared := false, ret := true,
      trace := initialRunState env polls0 }
  else
    let numTxCreated : Int := 0
    let stF := runAddresses env (groupNotes env) (initialRunState env polls0)
    { result := { numTxCreated := numTxCreated,
                  amountConsolidated := stF.amountConsolidated,
                  consolidationTxIds := stF.consolidationTxIds },
      nextConsolidation :=
        if stF.consolidationComplete then
          some (env.initializeConsolidationInterval + env.tipHeight)
        else none,
      runningCleared := stF.consolidationComplete,
      ret := true,
      trace := stF }

/-- Terminal states of the async operation (spec section 4.2). -/
inductive OperationStatus where
  | READY
  | EXECUTING
  | CANCELLED
  | SUCCESS
  | FAILED
deriving DecidableEq

/-- `AsyncRPCOperation_saplingconsolidation::main` (lines 24-70): return at
once when already cancelled (poll 0, state stays `CANCELLED`), otherwise run
`main_impl` and set the terminal state from its boolean — `SUCCESS`
overwrites any cancellation observed inside the loop. -/
def mainRun (env : ConsEnv) : OperationStatus × Option ImplResult :=
  if isCancelledAt env.cancelFrom 0 then (OperationStatus.CANCELLED, none)
  else
    let r := main_impl env 1
    (if r.ret then OperationStatus.SUCCESS else OperationStatus.FAILED, some r)

/-- An address is dismissed before the `consolidationComplete := false` point
(line 155) exactly when its spending key cannot be resolved (line 130) or its
matching-note count is below the configured target (lines 150-152). -/
def addressSkippedEarly (env : ConsEnv) (addr : Nat)
    (entries : List SaplingNoteEntry) : Bool :=
  match env.getExtSk addr with
  | none => true
  | some extsk =>
    decide (((entries.filter (noteMatch env extsk addr)).length : Int) <
      env.targetConsolidationQty)

/-- Concrete libzcash instance for witnesses: injective affine projections. -/
def L0 : LibZcash :=
  { sproutSkAddress := fun sk => sk + 50,
    sproutSkReceivingKey := fun sk => sk + 1,
    sproutVkAddress := fun vk => vk + 50,
    sproutVkSkEnc := fun vk => vk + 2,
    noteDecryption := fun x => x * 2,
    toXFVK := fun sk => sk + 10,
    fvkInViewingKey := fun f => f + 20,
    fvkOvk := fun f => f + 30,
    defaultAddress := fun f => f + 40 }

/-- A run environment with one address (5) owning two eligible notes worth
60 and 40, threshold 2, fee 10, all witnesses present, a builder that
succeeds with txid 42, and no cancellation. -/
def env2 : ConsEnv :=
  { targetHeight := 1000,
    nextActivationHeight := none,
    tipHeight := 1000,
    saplingEntries :=
      [{ address := 5, op := 11, note := 21, value := 60 },
       { address := 5, op := 12, note := 22, value := 40 }],
    fConsolidationMapUsed := false,
    consolidationAddresses := [],
    getExtSk := fun a => if a == 5 then some 9 else none,
    getIvk := fun a => if a == 5 then some 7 else none,
    extskIvk := fun _ => 7,
    extskExpsk := fun e => e + 100,
    extskOvk := fun _ => 3,
    targetConsolidationQty := 2,
    fConsolidationTxFee := 10,
    getWitnesses := fun ops => (33, ops.map (fun o => some (o + 1))),
    build := fun _ => some 42,
    cancelFrom := none,
    initializeConsolidationInterval := 200,
    rng := [0, 0] }

/-- The builder plan `env2` produces for address 5. -/
def plan2 : BuilderPlan :=
  { expiryHeight := 1040, fee := 10,
    spends := [(109, 21, 33, 12), (109, 22, 33, 13)],
    outputOvk := 3, outputAddr := 5, outputAmount := 90,
    selectedValue := 100, selectedCount := 2 }

/-- Like `env2` but the witness service reports the second witness missing. -/
def env4 : ConsEnv := { env2 with getWitnesses := fun _ => (33, [some 12, none]) }

/-- Like `env2` but cancellation is requested right after the job starts
(the flag reads true from poll 1 on, i.e. before any witness retrieval). -/
def env5 : ConsEnv := { env2 with cancelFrom := some 1 }

/-- Like `env2` but with a single eligible note and threshold 1: the address
passes the threshold check and is then dismissed by the randomized minimum
batch size (1 < 2). -/
def envC3 : ConsEnv :=
  { env2 with
    saplingEntries := [{ address := 5, op := 11, note := 21, value := 60 }],
    targetConsolidationQty := 1 }

/-- Like `env2` but with threshold 3: the only address stays below the
target count and is skipped at the threshold check. -/
def envC3w : ConsEnv := { env2 with targetConsolidationQty := 3 }


/-!
Claims about the credential store.
-/

/-- Claim C1, counterexample: adding address 5 with ivk 0 and then re-adding
address 5 with the different ivk 1 leaves the stored mapping at `some 1`,
not the original `some 0` — both calls return success, but
`operator[]` overwrites, so the second add is not a no-op. -/
theorem saplingIvk_readd_overwrites_cex :
    (AddSaplingIncomingViewingKey 0 5 emptyKeyStore).2 = true ∧
    (AddSaplingIncomingViewingKey 1 5
      (AddSaplingIncomingViewingKey 0 5 emptyKeyStore).1).2 = true ∧
    GetSaplingIncomingViewingKey
      (AddSaplingIncomingViewingKey 1 5
        (AddSaplingIncomingViewingKey 0 5 emptyKeyStore).1).1 5 = some 1 ∧
    some (1 : Nat) ≠ some (0 : Nat) := by
  exact ⟨rfl, rfl, rfl, by decide⟩

/-- Claim C1, amended: after `AddSaplingIncomingViewingKey(ivk, a)` followed
by `AddSaplingIncomingViewingKey(ivk2, a)` with `ivk2 ≠ ivk`, both calls
return success and the stored mapping for `a` is `ivk2` — the second add
overwrites (last write wins) rather than preserving the original mapping. -/
theorem saplingIvk_last_write_wins (s : CBasicKeyStore) (ivk ivk2 addr : Nat)
    (hne : ivk2 ≠ ivk) :
    (AddSaplingIncomingViewingKey ivk addr s).2 = true ∧
    (AddSaplingIncomingViewingKey ivk2 addr
      (AddSaplingIncomingViewingKey ivk addr s).1).2 = true ∧
    GetSaplingIncomingViewingKey
      (AddSaplingIncomingViewingKey ivk2 addr
        (AddSaplingIncomingViewingKey ivk addr s).1).1 addr = some ivk2 := by
  refine ⟨rfl, rfl, ?_⟩
  simp [AddSaplingIncomingViewingKey, GetSaplingIncomingViewingKey, mfind_mset_self]

/-- Witness for `saplingIvk_last_write_wins` at ivk 1, ivk2 0, address 7. -/
theorem saplingIvk_last_write_wins_witness :
    (0 : Nat) ≠ 1 ∧
    GetSaplingIncomingViewingKey
      (AddSaplingIncomingViewingKey 0 7
        (AddSaplingIncomingViewingKey 1 7 emptyKeyStore).1).1 7 = some 0 :=
  ⟨by decide, (saplingIvk_last_write_wins emptyKeyStore 1 0 7 (by decide)).2.2⟩

/-- Claim C9: the HD seed is write-once — if `SetHDSeed s1` succeeded with a
non-null `s1`, a second `SetHDSeed s2` (any non-null `s2`) returns failure,
leaves the store unchanged, and `GetHDSeed` still returns `s1`. -/
theorem setHDSeed_write_once (s : CBasicKeyStore) (s1 s2 : List Nat)
    (h1 : s1 ≠ []) (h2 : s2 ≠ []) (hok : (SetHDSeed s1 s).2 = true) :
    (SetHDSeed s2 (SetHDSeed s1 s).1).2 = false ∧
    (SetHDSeed s2 (SetHDSeed s1 s).1).1 = (SetHDSeed s1 s).1 ∧
    GetHDSeed (SetHDSeed s2 (SetHDSeed s1 s).1).1 = some s1 := by
  by_cases he : s.hdSeed.isEmpty
  · have he1 : s1.isEmpty = false := by
      cases s1 with
      | nil => exact absurd rfl h1
      | cons a t => rfl
    simp [SetHDSeed, GetHDSeed, he, he1]
  · simp [SetHDSeed, he] at hok

/-- Witness for `setHDSeed_write_once` on the fresh store with seeds
`[1]` and `[2]`. -/
theorem setHDSeed_write_once_witness :
    ([1] : List Nat) ≠ [] ∧ ([2] : List Nat) ≠ [] ∧
    (SetHDSeed [1] emptyKeyStore).2 = true ∧
    ((SetHDSeed [2] (SetHDSeed [1] emptyKeyStore).1).2 = false ∧
     (SetHDSeed [2] (SetHDSeed [1] emptyKeyStore).1).1 =
       (SetHDSeed [1] emptyKeyStore).1 ∧
     GetHDSeed (SetHDSeed [2] (SetHDSeed [1] emptyKeyStore).1).1 = some [1]) :=
  ⟨by decide, by decide, by decide,
   setHDSeed_write_once emptyKeyStore [1] [2] (by decide) (by decide) (by decide)⟩

/-- Claim C8: `GetSaplingExtendedSpendingKey` fails when the incoming
viewing key, the full viewing key, or the spending key link is absent, and
after `AddSaplingSpendingKey sk` (which succeeds) the composite lookup at
the key's default address returns exactly `sk`. -/
theorem getSaplingExtendedSpendingKey_chain :
    (∀ (s : CBasicKeyStore) (addr : Nat),
      GetSaplingIncomingViewingKey s addr = none →
      GetSaplingExtendedSpendingKey s addr = none) ∧
    (∀ (s : CBasicKeyStore) (addr ivk : Nat),
      GetSaplingIncomingViewingKey s addr = some ivk →
      GetSaplingFullViewingKey s ivk = none →
      GetSaplingExtendedSpendingKey s addr = none) ∧
    (∀ (s : CBasicKeyStore) (addr ivk extfvk : Nat),
      GetSaplingIncomingViewingKey s addr = some ivk →
      GetSaplingFullViewingKey s ivk = some extfvk →
      GetSaplingSpendingKey s extfvk = none →
      GetSaplingExtendedSpendingKey s addr = none) ∧
    (∀ (L : LibZcash) (sk : Nat) (s : CBasicKeyStore),
      (AddSaplingSpendingKey L sk s).2 = true ∧
      GetSaplingExtendedSpendingKey (AddSaplingSpendingKey L sk s).1
        (L.defaultAddress (L.toXFVK sk)) = some sk) := by
  refine ⟨?_, ?_, ?_, ?_⟩
  · intro s addr h
    simp [GetSaplingExtendedSpendingKey, h]
  · intro s addr ivk h1 h2
    simp [GetSaplingExtendedSpendingKey, h1, h2]
  · intro s addr ivk extfvk h1 h2 h3
    simp [GetSaplingExtendedSpendingKey, h1, h2, h3]
  · intro L sk s
    refine ⟨rfl, ?_⟩
    simp [AddSaplingSpendingKey, AddSaplingFullViewingKey,
      AddSaplingIncomingViewingKey, GetSaplingExtendedSpendingKey,
      GetSaplingIncomingViewingKey, GetSaplingFullViewingKey,
      GetSaplingSpendingKey, mfind_mset_self]

/-- Witness for `getSaplingExtendedSpendingKey_chain`: the empty store fails
the composite lookup, a store holding only an address-to-ivk link still
fails, and the round trip through `AddSaplingSpendingKey L0 1` returns the
key at its default address. -/
theorem getSaplingExtendedSpendingKey_chain_witness :
    GetSaplingExtendedSpendingKey emptyKeyStore 3 = none ∧
    GetSaplingExtendedSpendingKey
      (AddSaplingIncomingViewingKey 7 3 emptyKeyStore).1 3 = none ∧
    GetSaplingExtendedSpendingKey (AddSaplingSpendingKey L0 1 emptyKeyStore).1
      (L0.defaultAddress (L0.toXFVK 1)) = some 1 :=
  ⟨getSaplingExtendedSpendingKey_chain.1 emptyKeyStore 3 (by decide),
   getSaplingExtendedSpendingKey_chain.2.1
     (AddSaplingIncomingViewingKey 7 3 emptyKeyStore).1 3 7 (by decide) (by decide),
   (getSaplingExtendedSpendingKey_chain.2.2.2 L0 1 emptyKeyStore).2⟩

/-- Claim C10: `RemoveSproutViewingKey vk` erases only the viewing-key map
entry for `vk`'s address — the note decryptor cached for that address by
`AddSproutViewingKey` survives removal, entries of the viewing-key map at
other addresses survive, and every other map and set of the store is
unchanged. -/
theorem removeSproutViewingKey_frame (L : LibZcash) (vk : Nat)
    (s : CBasicKeyStore) :
    mfind (RemoveSproutViewingKey L vk s).1.mapSproutViewingKeys
      (L.sproutVkAddress vk) = none ∧
    (∀ a, a ≠ L.sproutVkAddress vk →
      mfind (RemoveSproutViewingKey L vk s).1.mapSproutViewingKeys a =
        mfind s.mapSproutViewingKeys a) ∧
    (RemoveSproutViewingKey L vk s).1.mapNoteDecryptors = s.mapNoteDecryptors ∧
    (RemoveSproutViewingKey L vk s).1.mapKeys = s.mapKeys ∧
    (RemoveSproutViewingKey L vk s).1.mapScripts = s.mapScripts ∧
    (RemoveSproutViewingKey L vk s).1.setWatchOnly = s.setWatchOnly ∧
    (RemoveSproutViewingKey L vk s).1.setSaplingWatchOnly = s.setSaplingWatchOnly ∧
    (RemoveSproutViewingKey L vk s).1.hdSeed = s.hdSeed ∧
    (RemoveSproutViewingKey L vk s).1.mapSproutSpendingKeys =
      s.mapSproutSpendingKeys ∧
    (RemoveSproutViewingKey L vk s).1.mapSaplingSpendingKeys =
      s.mapSaplingSpendingKeys ∧
    (RemoveSproutViewingKey L vk s).1.mapSaplingFullViewingKeys =
      s.mapSaplingFullViewingKeys ∧
    (RemoveSproutViewingKey L vk s).1.mapSaplingIncomingViewingKeys =
      s.mapSaplingIncomingViewingKeys ∧
    (RemoveSproutViewingKey L vk s).1.setSaplingOutgoingViewingKeys =
      s.setSaplingOutgoingViewingKeys ∧
    (RemoveSproutViewingKey L vk s).1.setSaplingIncomingViewingKeys =
      s.setSaplingIncomingViewingKeys ∧
    (RemoveSproutViewingKey L vk s).1.mapSaplingPaymentAddresses =
      s.mapSaplingPaymentAddresses ∧
    (RemoveSproutViewingKey L vk s).1.mapLastDiversifierPath =
      s.mapLastDiversifierPath ∧
    (mfind (RemoveSproutViewingKey L vk
        (AddSproutViewingKey L vk s).1).1.mapNoteDecryptors
      (L.sproutVkAddress vk)).isSome = true := by
  refine ⟨mfind_merase_self _ _, fun a ha => mfind_merase_ne _ _ _ ha,
    rfl, rfl, rfl, rfl, rfl, rfl, rfl, rfl, rfl, rfl, rfl, rfl, rfl, rfl, ?_⟩
  simp only [RemoveSproutViewingKey, AddSproutViewingKey]
  exact mfind_minsert_isSome _ _ _

/-- Witness for `removeSproutViewingKey_frame` at `L0`, key 4 (address 54),
on the empty store, with the other-address conjunct instantiated at 0. -/
theorem removeSproutViewingKey_frame_witness :
    mfind (RemoveSproutViewingKey L0 4 emptyKeyStore).1.mapSproutViewingKeys
      54 = none ∧
    mfind (RemoveSproutViewingKey L0 4 emptyKeyStore).1.mapSproutViewingKeys 0 =
      mfind emptyKeyStore.mapSproutViewingKeys 0 ∧
    (mfind (RemoveSproutViewingKey L0 4
        (AddSproutViewingKey L0 4 emptyKeyStore).1).1.mapNoteDecryptors
      54).isSome = true := by
  have h := removeSproutViewingKey_frame L0 4 emptyKeyStore
  exact ⟨h.1, h.2.1 0 (by decide),
    h.2.2.2.2.2.2.2.2.2.2.2.2.2.2.2.2⟩

/-!
Claims about the consolidation job.
-/

/-- Claim C2, code evaluation at the failing input: in `env2` exactly one
transaction is committed (one reported txid), yet the reported
`numTxCreated` is 0 — the counter declared at line 119 is never
incremented. -/
theorem consolidation_numTxCreated_always_zero :
    (main_impl env2 1).result.consolidationTxIds.length = 1 ∧
    (main_impl env2 1).result.numTxCreated = 0 :=
  ⟨rfl, rfl⟩

/-- Claim C4, code evaluation at the failing input: in `env4` two notes are
selected but the second witness is missing; the spend loop stops after one
spend, yet the builder is still invoked (one recorded plan, with 1 spend for
2 selected notes) and the resulting transaction is committed (txid 42). -/
theorem consolidation_missing_witness_builds_anyway :
    (main_impl env4 1).trace.plans.map
      (fun p => (p.spends.length, p.selectedCount)) = [(1, 2)] ∧
    (main_impl env4 1).result.consolidationTxIds = [42] :=
  ⟨rfl, rfl⟩

/-- Claim C3, counterexample: in `envC3` the only address passes the
threshold check (`addressSkippedEarly` is false) and is then dismissed by
the randomized minimum batch size — no plan is built, no transaction is
committed, every address was skipped at step 4b or 4c — yet the running
flag is not cleared and the next-consolidation height is not advanced. -/
theorem consolidation_minimum_skip_incomplete_cex :
    groupNotes envC3 = [(5, [{ address := 5, op := 11, note := 21, value := 60 }])] ∧
    addressSkippedEarly envC3 5
      [{ address := 5, op := 11, note := 21, value := 60 }] = false ∧
    (main_impl envC3 1).trace.plans = [] ∧
    (main_impl envC3 1).result.consolidationTxIds = [] ∧
    (main_impl envC3 1).runningCleared = false ∧
    (main_impl envC3 1).nextConsolidation = none :=
  ⟨rfl, rfl, rfl, rfl, rfl, rfl⟩

/-- Claim C5, counterexample: in `env5` cancellation is requested right
after the job starts (before any witness retrieval); the job observes it at
the pre-commit checkpoint (a plan was built but no transaction committed),
yet the terminal state is `SUCCESS`, not `CANCELLED`. -/
theorem consolidation_cancelled_run_ends_success_cex :
    (mainRun env5).1 = OperationStatus.SUCCESS ∧
    (mainRun env5).1 ≠ OperationStatus.CANCELLED ∧
    (mainRun env5).2.map
      (fun r => (r.result.consolidationTxIds, r.trace.plans.length)) =
      some ([], 1) :=
  ⟨rfl, by decide, rfl⟩

/-- Claim C6, counterexample: in `env2` one transaction is committed with
selected input value 100 and output 90 (fee 10), but the reported
`amountConsolidated` is 190 = 100 + 90: the input value is added at
selection (line 183) and the output value again after commit (line 235). -/
theorem consolidation_amount_double_counted_cex :
    (main_impl env2 1).result.amountConsolidated = 190 ∧
    (main_impl env2 1).trace.selectedAmounts = [100] ∧
    (main_impl env2 1).trace.committedAmounts = [90] ∧
    (main_impl env2 1).result.consolidationTxIds.length = 1 ∧
    (190 : Int) ≠ 100 ∧ (190 : Int) ≠ 90 :=
  ⟨rfl, rfl, rfl, rfl, by decide, by decide⟩

theorem processAddress_complete_eq (env : ConsEnv) (st : RunState) (addr : Nat)
    (entries : List SaplingNoteEntry) :
    (processAddress env st addr entries).1.consolidationComplete =
      (st.consolidationComplete && addressSkippedEarly env addr entries) := by
  unfold processAddress addressSkippedEarly
  cases hsk : env.getExtSk addr with
  | none => simp
  | some extsk =>
    dsimp only
    by_cases hth : ((entries.filter (noteMatch env extsk addr)).length : Int) <
        env.targetConsolidationQty
    · simp [hth]
    · rw [if_neg hth, decide_eq_false hth, Bool.and_false]
      split
      · rfl
      · split
        · rfl
        · split
          · rfl
          · rfl

theorem processAddress_break_not_skipped (env : ConsEnv) (st : RunState)
    (addr : Nat) (entries : List SaplingNoteEntry)
    (hb : (processAddress env st addr entries).2 = false) :
    addressSkippedEarly env addr entries = false := by
  unfold processAddress at hb
  unfold addressSkippedEarly
  cases hsk : env.getExtSk addr with
  | none => rw [hsk] at hb; simp at hb
  | some extsk =>
    rw [hsk] at hb
    dsimp only at hb ⊢
    by_cases hth : ((entries.filter (noteMatch env extsk addr)).length : Int) <
        env.targetConsolidationQty
    · rw [if_pos hth] at hb
      simp at hb
    · exact decide_eq_false hth

theorem runAddresses_complete (env : ConsEnv)
    (gs : List (Nat × List SaplingNoteEntry)) (st : RunState) :
    (runAddresses env gs st).consolidationComplete =
      (st.consolidationComplete &&
        gs.all (fun g => addressSkippedEarly env g.1 g.2)) := by
  induction gs generalizing st with
  | nil => simp [runAddresses]
  | cons g rest ih =>
    rcases g with ⟨addr, entries⟩
    unfold runAddresses
    dsimp only
    by_cases hb : (processAddress env st addr entries).2 = true
    · rw [if_pos hb, ih, processAddress_complete_eq]
      simp [Bool.and_assoc]
    · rw [if_neg hb]
      have hb2 : (processAddress env st addr entries).2 = false := by
        cases h2 : (processAddress env st addr entries).2
        · rfl
        · exact absurd h2 hb
      have hsf := processAddress_break_not_skipped env st addr entries hb2
      rw [processAddress_complete_eq, hsf]
      simp [hsf]

/-- Claim C3, amended: when the run is not skipped by network-upgrade
proximity, the run is marked complete (running flag cleared, next height
scheduled at the configured interval past the tip) exactly when every
grouped address was dismissed before the incompleteness point: unresolvable
spending key or note count below the configured target (step 4b).  An
address dismissed at step 4c (randomized minimum batch size) has already
marked the run incomplete, so — contrary to the claim — its skip does not
preserve completeness. -/
theorem consolidation_complete_iff_threshold_skips (env : ConsEnv)
    (polls0 : Nat)
    (hNU : ∀ h, env.nextActivationHeight = some h →
      env.targetHeight + CONSOLIDATION_EXPIRY_DELTA < h) :
    ((main_impl env polls0).runningCleared = true ↔
      (groupNotes env).all (fun g => addressSkippedEarly env g.1 g.2) = true) ∧
    (main_impl env polls0).nextConsolidation =
      (if (main_impl env polls0).runningCleared then
        some (env.initializeConsolidationInterval + env.tipHeight)
      else none) := by
  have hskip : (match env.nextActivationHeight with
      | some h => decide (env.targetHeight + CONSOLIDATION_EXPIRY_DELTA ≥ h)
      | none => false) = false := by
    cases hna : env.nextActivationHeight with
    | none => rfl
    | some h =>
      dsimp only
      exact decide_eq_false (not_le.mpr (hNU h hna))
  unfold main_impl
  rw [hskip]
  dsimp only [if_false]
  rw [runAddresses_complete]
  simp [initialRunState]

/-- Witness for `consolidation_complete_iff_threshold_skips` at `envC3w`,
where the only address stays below the threshold: the flag is cleared and
the schedule advanced. -/
theorem consolidation_complete_iff_threshold_skips_witness :
    (((main_impl envC3w 1).runningCleared = true ↔
      (groupNotes envC3w).all
        (fun g => addressSkippedEarly envC3w g.1 g.2) = true) ∧
     (main_impl envC3w 1).nextConsolidation =
      (if (main_impl envC3w 1).runningCleared then
        some (envC3w.initializeConsolidationInterval + envC3w.tipHeight)
      else none)) ∧
    (main_impl envC3w 1).runningCleared = true ∧
    (main_impl envC3w 1).nextConsolidation = some 1200 :=
  ⟨consolidation_complete_iff_threshold_skips envC3w 1
      (fun h hh => Option.noConfusion hh),
   rfl, rfl⟩

theorem processAddress_amount (env : ConsEnv) (st : RunState) (addr : Nat)
    (entries : List SaplingNoteEntry)
    (h1 : st.amountConsolidated =
      st.selectedAmounts.sum + st.committedAmounts.sum)
    (h2 : st.committedAmounts.length = st.consolidationTxIds.length) :
    (processAddress env st addr entries).1.amountConsolidated =
      (processAddress env st addr entries).1.selectedAmounts.sum +
        (processAddress env st addr entries).1.committedAmounts.sum ∧
    (processAddress env st addr entries).1.committedAmounts.length =
      (processAddress env st addr entries).1.consolidationTxIds.length := by
  unfold processAddress
  cases env.getExtSk addr with
  | none => exact ⟨h1, h2⟩
  | some extsk =>
    dsimp only
    split
    · exact ⟨h1, h2⟩
    · split
      · exact ⟨h1, h2⟩
      · split
        · refine ⟨?_, by simpa using h2⟩
          simp only [List.sum_append, List.sum_cons, List.sum_nil, h1]
          ring
        · split
          · refine ⟨?_, by simpa using h2⟩
            simp only [List.sum_append, List.sum_cons, List.sum_nil, h1]
            ring
          · refine ⟨?_, by simp [h2]⟩
            simp only [List.sum_append, List.sum_cons, List.sum_nil, h1]
            ring

theorem runAddresses_amount (env : ConsEnv)
    (gs : List (Nat × List SaplingNoteEntry)) (st : RunState)
    (h1 : st.amountConsolidated =
      st.selectedAmounts.sum + st.committedAmounts.sum)
    (h2 : st.committedAmounts.length = st.consolidationTxIds.length) :
    (runAddresses env gs st).amountConsolidated =
      (runAddresses env gs st).selectedAmounts.sum +
        (runAddresses env gs st).committedAmounts.sum ∧
    (runAddresses env gs st).committedAmounts.length =
      (runAddresses env gs st).consolidationTxIds.length := by
  induction gs generalizing st with
  | nil => exact ⟨h1, h2⟩
  | cons g rest ih =>
    rcases g with ⟨addr, entries⟩
    unfold runAddresses
    dsimp only
    have hp := processAddress_amount env st addr entries h1 h2
    by_cases hb : (processAddress env st addr entries).2 = true
    · rw [if_pos hb]
      exact ih _ hp.1 hp.2
    · rw [if_neg hb]
      exact hp

/-- Claim C6, amended: the reported `amountConsolidated` equals the sum of
the selected input values of every address that reached transaction
construction (recorded once per address at line 183, whether or not the
transaction was later built or committed) plus, per committed transaction,
additionally its output value `amountToSend − fee` (line 235) — committed
value is double-counted, not counted once per committed transaction; the
`committedAmounts` trace has exactly one entry per reported txid. -/
theorem consolidation_amount_total_formula (env : ConsEnv) (polls0 : Nat) :
    (main_impl env polls0).result.amountConsolidated =
      (main_impl env polls0).trace.selectedAmounts.sum +
        (main_impl env polls0).trace.committedAmounts.sum ∧
    (main_impl env polls0).trace.committedAmounts.length =
      (main_impl env polls0).result.consolidationTxIds.length := by
  unfold main_impl
  dsimp only
  split
  · exact ⟨rfl, rfl⟩
  · exact runAddresses_amount env (groupNotes env) (initialRunState env polls0)
      rfl rfl

theorem selectNotes_nonneg (p : SaplingNoteEntry → Bool) (maxQ : Nat) :
    ∀ (es acc : List SaplingNoteEntry) (amt : Int), 0 ≤ amt →
      0 ≤ (selectNotes p maxQ es acc amt).2 := by
  intro es
  induction es with
  | nil => intro acc amt h; exact h
  | cons e es ih =>
    intro acc amt h
    unfold selectNotes
    dsimp only
    have hval : (0 : Int) ≤ (e.value : Int) := Int.natCast_nonneg _
    by_cases hp : p e = true
    · simp only [if_pos hp]
      split
      · exact add_nonneg h hval
      · exact ih _ _ (add_nonneg h hval)
    · simp only [if_neg hp]
      split
      · exact h
      · exact ih _ _ h

/-- The fee/output contract of one builder plan: the fee is the configured
fee when the selected value strictly exceeds it and zero otherwise, the
single output carries the selected value minus the fee, and the output is
never negative. -/
def planOk (env : ConsEnv) (p : BuilderPlan) : Prop :=
  p.fee = (if env.fConsolidationTxFee < p.selectedValue
    then env.fConsolidationTxFee else 0) ∧
  p.outputAmount = p.selectedValue - p.fee ∧
  0 ≤ p.outputAmount

theorem processAddress_plans_ok (env : ConsEnv) (st : RunState) (addr : Nat)
    (entries : List SaplingNoteEntry)
    (h : ∀ p ∈ st.plans, planOk env p) :
    ∀ p ∈ (processAddress env st addr entries).1.plans, planOk env p := by
  unfold processAddress
  cases env.getExtSk addr with
  | none => exact h
  | some extsk =>
    dsimp only
    split
    · exact h
    · split
      · exact h
      · have hV : (0 : Int) ≤ (selectNotes (noteMatch env extsk addr)
            ((randTake st.rng).1 % 35 + 10) entries [] 0).2 :=
          selectNotes_nonneg _ _ _ _ _ le_rfl
        have hplan : ∀ q : List BuilderPlan,
            (∀ p ∈ q, planOk env p) →
            ∀ p ∈ q ++ [{
              expiryHeight := env.tipHeight + CONSOLIDATION_EXPIRY_DELTA,
              fee := if (selectNotes (noteMatch env extsk addr)
                  ((randTake st.rng).1 % 35 + 10) entries [] 0).2 ≤
                    env.fConsolidationTxFee then 0
                else env.fConsolidationTxFee,
              spends := addSpends (env.extskExpsk extsk)
                (env.getWitnesses ((selectNotes (noteMatch env extsk addr)
                  ((randTake st.rng).1 % 35 + 10) entries [] 0).1.map
                    (fun e => e.op))).1
                ((selectNotes (noteMatch env extsk addr)
                  ((randTake st.rng).1 % 35 + 10) entries [] 0).1.map
                    (fun e => e.note))
                (env.getWitnesses ((selectNotes (noteMatch env extsk addr)
                  ((randTake st.rng).1 % 35 + 10) entries [] 0).1.map
                    (fun e => e.op))).2,
              outputOvk := env.extskOvk extsk,
              outputAddr := addr,
              outputAmount := (selectNotes (noteMatch env extsk addr)
                  ((randTake st.rng).1 % 35 + 10) entries [] 0).2 -
                (if (selectNotes (noteMatch env extsk addr)
                    ((randTake st.rng).1 % 35 + 10) entries [] 0).2 ≤
                      env.fConsolidationTxFee then 0
                  else env.fConsolidationTxFee),
              selectedValue := (selectNotes (noteMatch env extsk addr)
                  ((randTake st.rng).1 % 35 + 10) entries [] 0).2,
              selectedCount := (selectNotes (noteMatch env extsk addr)
                  ((randTake st.rng).1 % 35 + 10) entries [] 0).1.length }],
            planOk env p := by
          intro q hq p hp
          rcases List.mem_append.mp hp with hin | hin
          · exact hq p hin
          · rcases List.mem_singleton.mp hin with rfl
            by_cases hvf : (selectNotes (noteMatch env extsk addr)
                ((randTake st.rng).1 % 35 + 10) entries [] 0).2 ≤
                  env.fConsolidationTxFee
            · refine ⟨?_, rfl, ?_⟩
              · simp [planOk, hvf, not_lt.mpr hvf]
              · simp only [if_pos hvf]
                omega
            · refine ⟨?_, rfl, ?_⟩
              · simp [planOk, hvf, not_le.mp hvf]
              · simp only [if_neg hvf]
                have := not_le.mp hvf
                omega
        split
        · exact hplan st.plans h
        · split
          · exact hplan st.plans h
          · exact hplan st.plans h

theorem runAddresses_plans_ok (env : ConsEnv)
    (gs : List (Nat × List SaplingNoteEntry)) (st : RunState)
    (h : ∀ p ∈ st.plans, planOk env p) :
    ∀ p ∈ (runAddresses env gs st).plans, planOk env p := by
  induction gs generalizing st with
  | nil => exact h
  | cons g rest ih =>
    rcases g with ⟨addr, entries⟩
    unfold runAddresses
    dsimp only
    have hp := processAddress_plans_ok env st addr entries h
    by_cases hb : (processAddress env st addr entries).2 = true
    · rw [if_pos hb]
      exact ih _ hp
    · rw [if_neg hb]
      exact hp

/-- Claim C7: for every builder plan produced by a run, the fee is the
configured fee `F` when the selected input value `V` strictly exceeds `F`
and zero otherwise, the single output amount is `V − fee` (so `V − F` when
`V > F` and `V` otherwise), and the output amount is never negative. -/
theorem consolidation_fee_and_output (env : ConsEnv) (polls0 : Nat)
    (plan : BuilderPlan)
    (hmem : plan ∈ (main_impl env polls0).trace.plans) :
    plan.fee = (if env.fConsolidationTxFee < plan.selectedValue
      then env.fConsolidationTxFee else 0) ∧
    plan.outputAmount = plan.selectedValue - plan.fee ∧
    0 ≤ plan.outputAmount := by
  have hall : ∀ p ∈ (main_impl env polls0).trace.plans, planOk env p := by
    unfold main_impl
    dsimp only
    split
    · intro p hp
      exact absurd hp (by simp [initialRunState])
    · exact runAddresses_plans_ok env (groupNotes env)
        (initialRunState env polls0) (by simp [initialRunState])
  exact hall plan hmem

/-- Witness for `consolidation_fee_and_output` at `env2`'s single plan:
selected value 100 exceeds the fee 10, output 90 = 100 − 10 ≥ 0. -/
theorem consolidation_fee_and_output_witness :
    plan2 ∈ (main_impl env2 1).trace.plans ∧
    (plan2.fee = (if env2.fConsolidationTxFee < plan2.selectedValue
      then env2.fConsolidationTxFee else 0) ∧
     plan2.outputAmount = plan2.selectedValue - plan2.fee ∧
     0 ≤ plan2.outputAmount) :=
  ⟨by decide, consolidation_fee_and_output env2 1 plan2 (by decide)⟩

theorem main_impl_ret (env : ConsEnv) (polls0 : Nat) :
    (main_impl env polls0).ret = true := by
  unfold main_impl
  dsimp only
  split <;> rfl

theorem processAddress_cancel_cases (env : ConsEnv) (k : Nat)
    (hc : env.cancelFrom = some k) (st : RunState) (addr : Nat)
    (entries : List SaplingNoteEntry) :
    ((processAddress env st addr entries).1.consolidationTxIds =
        st.consolidationTxIds ∧
      (processAddress env st addr entries).1.polls = st.polls) ∨
    ((processAddress env st addr entries).1.consolidationTxIds =
        st.consolidationTxIds ∧
      (processAddress env st addr entries).1.polls = st.polls + 1 ∧
      k ≤ st.polls) ∨
    ((processAddress env st addr entries).1.consolidationTxIds.length =
        st.consolidationTxIds.length + 1 ∧
      (processAddress env st addr entries).1.polls = st.polls + 1 ∧
      st.polls < k) := by
  unfold processAddress
  cases env.getExtSk addr with
  | none => exact Or.inl ⟨rfl, rfl⟩
  | some extsk =>
    dsimp only
    split
    · exact Or.inl ⟨rfl, rfl⟩
    · split
      · exact Or.inl ⟨rfl, rfl⟩
      · split
        · exact Or.inl ⟨rfl, rfl⟩
        · split
          · next hcan =>
            refine Or.inr (Or.inl ⟨rfl, rfl, ?_⟩)
            rw [hc] at hcan
            exact of_decide_eq_true hcan
          · next hcan =>
            refine Or.inr (Or.inr ⟨by simp, rfl, ?_⟩)
            rw [hc] at hcan
            by_contra hnk
            exact hcan (by simp only [isCancelledAt, decide_eq_true_eq]; omega)

theorem runAddresses_frozen (env : ConsEnv) (k : Nat)
    (hc : env.cancelFrom = some k) :
    ∀ (gs : List (Nat × List SaplingNoteEntry)) (st : RunState),
      k ≤ st.polls →
      (runAddresses env gs st).consolidationTxIds = st.consolidationTxIds := by
  intro gs
  induction gs with
  | nil => intro st _; rfl
  | cons g rest ih =>
    intro st hk
    rcases g with ⟨addr, entries⟩
    unfold runAddresses
    dsimp only
    rcases processAddress_cancel_cases env k hc st addr entries with
      ⟨ht, hp⟩ | ⟨ht, hp, _⟩ | ⟨_, _, hlt⟩
    · split
      · exact (ih _ (by rw [hp]; exact hk)).trans ht
      · exact ht
    · split
      · exact (ih _ (by rw [hp]; omega)).trans ht
      · exact ht
    · exact absurd hk (by omega)

theorem runAddresses_commit_bound (env : ConsEnv) (k : Nat)
    (hc : env.cancelFrom = some k) :
    ∀ (gs : List (Nat × List SaplingNoteEntry)) (st : RunState),
      (runAddresses env gs st).consolidationTxIds.length + st.polls ≤
        st.consolidationTxIds.length + max k st.polls := by
  intro gs
  induction gs with
  | nil => intro st; simp [runAddresses]
  | cons g rest ih =>
    intro st
    rcases g with ⟨addr, entries⟩
    unfold runAddresses
    dsimp only
    rcases processAddress_cancel_cases env k hc st addr entries with
      ⟨ht, hp⟩ | ⟨ht, hp, hkk⟩ | ⟨ht, hp, hlt⟩
    · split
      · have hb := ih ((processAddress env st addr entries).1)
        rw [ht, hp] at hb
        exact hb
      · rw [ht]; omega
    · split
      · have hb := ih ((processAddress env st addr entries).1)
        rw [ht, hp] at hb
        omega
      · rw [ht]; omega
    · split
      · have hb := ih ((processAddress env st addr entries).1)
        rw [ht, hp] at hb
        omega
      · rw [ht]; omega

/-- Claim C5, amended: when cancellation is requested after the job has
started (the flag reads true from poll `k ≥ 1` on), the job stops committing
at the checkpoint that observes it — once the poll count has reached `k` no
further transaction identifier is recorded, and at most `k − 1` commits
happen in total — but the terminal state is `SUCCESS`, not `CANCELLED`:
`main_impl` still returns success after the cancellation `break` and
`main` overwrites the state; the state remains `CANCELLED` only when
cancellation is observed at job start, before execution. -/
theorem consolidation_cancel_no_commit_after_observation (env : ConsEnv)
    (k : Nat) (hc : env.cancelFrom = some k) (hk : 1 ≤ k) :
    (mainRun env).1 = OperationStatus.SUCCESS ∧
    (∀ (gs : List (Nat × List SaplingNoteEntry)) (st : RunState),
      k ≤ st.polls →
      (runAddresses env gs st).consolidationTxIds = st.consolidationTxIds) ∧
    (∀ r, (mainRun env).2 = some r →
      r.result.consolidationTxIds.length + 1 ≤ k) := by
  have h0 : isCancelledAt env.cancelFrom 0 = false := by
    rw [hc]
    simp only [isCancelledAt, decide_eq_false_iff_not]
    omega
  have hbound : (main_impl env 1).result.consolidationTxIds.length + 1 ≤ k := by
    unfold main_impl
    dsimp only
    split
    · simpa using hk
    · have hb := runAddresses_commit_bound env k hc (groupNotes env)
        (initialRunState env 1)
      have hl0 : (initialRunState env 1).consolidationTxIds.length = 0 := rfl
      have hp1 : (initialRunState env 1).polls = 1 := rfl
      rw [hl0, hp1, Nat.max_eq_left hk] at hb
      show (runAddresses env (groupNotes env)
        (initialRunState env 1)).consolidationTxIds.length + 1 ≤ k
      omega
  refine ⟨?_, runAddresses_frozen env k hc, ?_⟩
  · unfold mainRun
    rw [h0]
    simp [main_impl_ret]
  · intro r hr
    unfold mainRun at hr
    rw [h0] at hr
    simp only [Bool.false_eq_true, if_false, Option.some.injEq] at hr
    rw [← hr]
    exact hbound

/-- Witness for `consolidation_cancel_no_commit_after_observation` at
`env5` (cancellation requested from poll 1 on): the run ends `SUCCESS` and
the address loop, entered with the poll count already at the cancellation
point, records no transaction identifier. -/
theorem consolidation_cancel_no_commit_after_observation_witness :
    (mainRun env5).1 = OperationStatus.SUCCESS ∧
    (runAddresses env5 (groupNotes env5)
        (initialRunState env5 1)).consolidationTxIds =
      (initialRunState env5 1).consolidationTxIds := by
  have h := consolidation_cancel_no_commit_after_observation env5 1 rfl
    (by decide)
  exact ⟨h.1, h.2.1 (groupNotes env5) (initialRunState env5 1) (by decide)⟩
